import Mathlib

/-!
Shallow embedding of the `status` cog (`status/status.py`): the update-detection
and fan-out core.  Python dicts keyed by strings become association lists,
in-place mutation becomes explicit state passing, exceptions become explicit
outcome constructors, and external collaborators (feedparser, discord, the Red
config store contents) become environment records of total functions.
-/

set_option maxHeartbeats 1000000

namespace Status

/-- One entry of a feeddict's `fields` list: a Python dict
`{"name": ..., "value": ...}` (built by the rss helper / devcheckfeed code). -/
structure Field where
  name : String
  value : String
deriving DecidableEq, Repr

/-- The value stored under the `"time"` key of a feeddict.  `process_feed`
produces an absolute datetime (`dt`); `check_real_update` overwrites it with
`feeddict["time"].timestamp()`, an epoch number (`epoch`).  Seconds are kept as
an integer: no claim exercises sub-second arithmetic. -/
inductive TimeVal where
  | dt (seconds : Int)
  | epoch (seconds : Int)
deriving DecidableEq, Repr

/-- Python's `datetime.timestamp()`: the epoch value of the carried time. -/
def TimeVal.toEpoch : TimeVal → Int
  | TimeVal.dt s => s
  | TimeVal.epoch s => s

/-- The normalized feeddict produced by `process_feed` (see the `parseddict`
built in `devcheckfeed`, which the repo labels the "standard" shape):
`title`, `desc`, `time`, `colour`, `friendlyname` and the ordered `fields`. -/
structure FeedDict where
  title : String
  desc : String
  time : TimeVal
  colour : Int
  friendlyname : String
  fields : List Field
deriving DecidableEq, Repr

/-- String-keyed dict lookup (`d[k]` guarded by `try/except KeyError`):
`none` models the `KeyError` case. -/
def lookupS {α : Type} : List (String × α) → String → Option α
  | [], _ => none
  | (k, v) :: rest, key => if k = key then some v else lookupS rest key

/-- String-keyed dict assignment `d[k] = v` (replace if present, else add). -/
def setS {α : Type} : List (String × α) → String → α → List (String × α)
  | [], key, v => [(key, v)]
  | (k, w) :: rest, key, v =>
      if k = key then (key, v) :: rest else (k, w) :: setS rest key v

/-- `check_real_update(service, feeddict)` over an explicit `feed_store`.
The Python reads `feed_store[service]["fields"]`, using the sentinel string
`"hello"` on `KeyError`; the sentinel never equals a `fields` list, which the
`Option` models (`none` = sentinel, unequal to every `some`).  On a real
update it mutates `feeddict["time"]` to its epoch value and stores the
mutated dict; the mutated dict is returned to model the in-place mutation
seen by the caller.  Returns (decision, feeddict after the call, new store). -/
def check_real_update (service : String) (feeddict : FeedDict)
    (feed_store : List (String × FeedDict)) :
    Bool × FeedDict × List (String × FeedDict) :=
  let old_fields : Option (List Field) :=
    (lookupS feed_store service).map FeedDict.fields
  let new_fields := feeddict.fields
  if old_fields = some new_fields then
    (false, feeddict, feed_store)
  else
    let updated := { feeddict with time := TimeVal.epoch feeddict.time.toEpoch }
    (true, updated, setS feed_store service updated)

/-- Per-service value inside a guild's `feeds` dict: either a list of channel
ids, or the legacy shape where a single channel id was stored as a bare int. -/
inductive FeedsVal where
  | chans (l : List Int)
  | legacy (c : Int)
deriving DecidableEq, Repr

/-- `get_channels(service)` over the result of `config.all_guilds()`.
Per guild: `KeyError` (service absent) → `continue`; a list → `extend`;
the legacy int → `TypeError` → `append`. -/
def get_channels (all_guilds : List (Int × List (String × FeedsVal)))
    (service : String) : List Int :=
  all_guilds.foldl
    (fun channels server =>
      match lookupS server.2 service with
      | none => channels
      | some (FeedsVal.chans l) => channels ++ l
      | some (FeedsVal.legacy c) => channels ++ [c])
    []

/-- Per-guild contribution to `get_channels`, used to specify the flattening. -/
def guildContrib (service : String) (server : Int × List (String × FeedsVal)) :
    List Int :=
  match lookupS server.2 service with
  | none => []
  | some (FeedsVal.chans l) => l
  | some (FeedsVal.legacy c) => [c]

/-- Outcome of the `statusset add` body (inside the `feeds` config section;
the permission and valid-service guards happen before it and are untouched
state either way).  `typeError` records that `channel.id in feeds[service]`
on the legacy int shape raises `TypeError`, which no handler there catches. -/
inductive AddResult where
  | added
  | alreadySubscribed
  | typeError
deriving DecidableEq, Repr

/-- The `statusset_add` read-modify-write on one guild's `feeds` dict. -/
def statusset_add (feeds : List (String × FeedsVal)) (service : String)
    (chan : Int) : AddResult × List (String × FeedsVal) :=
  match lookupS feeds service with
  | some (FeedsVal.chans l) =>
      if chan ∈ l then (AddResult.alreadySubscribed, feeds)
      else (AddResult.added, setS feeds service (FeedsVal.chans (l ++ [chan])))
  | some (FeedsVal.legacy _) => (AddResult.typeError, feeds)
  | none => (AddResult.added, setS feeds service (FeedsVal.chans [chan]))

/-- A resolved Discord channel as far as the cog touches it: its id, its
guild's id (both read by the failure log line) and whether `channel.send`
raises `Forbidden` for the bot (a permission fact of the external world). -/
structure Channel where
  id : Int
  guildId : Int
  sendForbidden : Bool
deriving DecidableEq, Repr

/-- External bot state consulted by `send_updated_feed`:
`bot.get_channel` (an id that no longer resolves gives `none`) and
`bot.embed_requested` on a resolved channel. -/
structure BotEnv where
  getChannel : Int → Option Channel
  embedRequested : Channel → Bool

/-- What `send_updated_feed` hands to `channel.send`: the embed (title, desc,
optional timestamp, colour, fields added in reverse order) or the plain-text
rendering (same parts; the URL-wrapping regex only rewrites the final string
and is dropped as pure formatting). -/
inductive Message where
  | embed (title desc : String) (timestamp : Option TimeVal) (colour : Int)
      (fields : List Field)
  | plain (title desc : String) (fields : List Field)
deriving DecidableEq, Repr

/-- Result of one `send_updated_feed` call.  `forbiddenLogged`: `channel.send`
raised `Forbidden`, caught and logged.  `attributeError`: the channel id did
not resolve, so `channel` is `None`; `channel.send` raises `AttributeError`,
and the `except (Forbidden, AttributeError)` handler's log line then evaluates
`channel.id` on `None`, raising a fresh `AttributeError` that escapes the
function (the same happens in either rendering branch). -/
inductive SendOutcome where
  | sent (channelId : Int) (msg : Message)
  | forbiddenLogged (channelId : Int)
  | attributeError
deriving DecidableEq, Repr

/-- `send_updated_feed(feeddict, channel)`.  The embed constructor raises
`TypeError` when `feeddict["time"]` is not a datetime (the epoch float case);
the code catches it and rebuilds the embed without a timestamp. -/
def send_updated_feed (env : BotEnv) (feeddict : FeedDict) (channelId : Int) :
    SendOutcome :=
  match env.getChannel channelId with
  | none => SendOutcome.attributeError
  | some channel =>
      let msg :=
        if env.embedRequested channel then
          match feeddict.time with
          | TimeVal.dt s =>
              Message.embed feeddict.title feeddict.desc (some (TimeVal.dt s))
                feeddict.colour feeddict.fields.reverse
          | TimeVal.epoch _ =>
              Message.embed feeddict.title feeddict.desc none
                feeddict.colour feeddict.fields.reverse
        else Message.plain feeddict.title feeddict.desc feeddict.fields.reverse
      if channel.sendForbidden then SendOutcome.forbiddenLogged channel.id
      else SendOutcome.sent channel.id msg

/-- Python exceptions that can escape one service's processing in the update
loop (nothing in `actually_check_updates` catches either of these two). -/
inductive PyExn where
  | attributeError
  | malformedFeedError
deriving DecidableEq, Repr

/-- Observable actions of one polling cycle, in program order. -/
inductive Event where
  | fetched (service : String)
  | etagWrite (service : String) (value : String)
  | storeWrite (service : String) (fd : FeedDict)
  | logGhost (service : String)
  | logNoUpdate (service : String)
  | logConnFail (service : String)
  | send (service : String) (outcome : SendOutcome)
deriving DecidableEq, Repr

/-- Whether an event is a notification attempt. -/
def isSendEvent : Event → Bool
  | Event.send _ _ => true
  | _ => false

/-- The `for channel in channels: await self.send_updated_feed(...)` loop.
An `attributeError` outcome is an uncaught exception: the loop stops there
and the exception propagates (second component). -/
def fanout (env : BotEnv) (service : String) (feeddict : FeedDict) :
    List Int → List Event × Option PyExn
  | [] => ([], none)
  | c :: rest =>
      match send_updated_feed env feeddict c with
      | SendOutcome.attributeError =>
          ([Event.send service SendOutcome.attributeError],
           some PyExn.attributeError)
      | SendOutcome.forbiddenLogged cid =>
          let r := fanout env service feeddict rest
          (Event.send service (SendOutcome.forbiddenLogged cid) :: r.1, r.2)
      | SendOutcome.sent cid msg =>
          let r := fanout env service feeddict rest
          (Event.send service (SendOutcome.sent cid msg) :: r.1, r.2)

/-- What `feedparser.parse(url, etag=...)` yields for one service this cycle:
a response carrying `.status` and `.etag`, or a raised
`ConnectionRefusedError` / `URLError`. -/
inductive FetchOutcome where
  | response (status : Int) (etag : String)
  | connRefused
  | urlError
deriving DecidableEq, Repr

/-- Modelled from the spec: `process_feed` delegates to
`rsshelper.process_feed` (UpdateNormalizer), whose module is not among the
sources here.  Per the spec it returns a normalized FeedUpdate, or fails with
`MalformedFeedError` when the raw document cannot be decomposed into the
expected record shape. -/
inductive NormalizeOutcome where
  | ok (fd : FeedDict)
  | malformedFeedError
deriving DecidableEq, Repr

/-- The two persisted global stores the loop mutates: `etags` and
`feed_store`. -/
structure CycleState where
  etags : List (String × String)
  feed_store : List (String × FeedDict)
deriving DecidableEq, Repr

/-- External world for one cycle: the fetch result per service (as a function
of the etag passed, `none` when no etag is stored), the normalizer result per
service, the subscription data (`config.all_guilds()`), and the bot. -/
structure CycleEnv where
  fetch : String → Option String → FetchOutcome
  normalize : String → NormalizeOutcome
  all_guilds : List (Int × List (String × FeedsVal))
  bot : BotEnv

/-- The response handling of one `for feed in FEED_URLS.items()` iteration,
after the parse call (`st1` is the state after the etag `KeyError` handling).
On a 200 response the etag is updated, the feed is normalized and
`check_real_update` decides ghost vs real; a real update fans out to
`get_channels`; non-200 only logs.  Only `ConnectionRefusedError`/`URLError`
(and the etag `KeyError`) are caught anywhere in the loop, so a
`MalformedFeedError` from normalization or an `AttributeError` from the
fan-out propagates (third component). -/
def processServiceBody (env : CycleEnv) (st1 : CycleState) (service : String)
    (resp : FetchOutcome) : CycleState × List Event × Option PyExn :=
  match resp with
  | FetchOutcome.connRefused => (st1, [Event.logConnFail service], none)
  | FetchOutcome.urlError => (st1, [Event.logConnFail service], none)
  | FetchOutcome.response status etag =>
      if status = 200 then
        let st2 := { st1 with etags := setS st1.etags service etag }
        match env.normalize service with
        | NormalizeOutcome.malformedFeedError =>
            (st2, [Event.etagWrite service etag], some PyExn.malformedFeedError)
        | NormalizeOutcome.ok feeddict =>
            let r := check_real_update service feeddict st2.feed_store
            if r.1 then
              let st3 := { st2 with feed_store := r.2.2 }
              let channels := get_channels env.all_guilds service
              let fo := fanout env.bot service r.2.1 channels
              (st3,
               Event.etagWrite service etag :: Event.storeWrite service r.2.1
                 :: fo.1,
               fo.2)
            else
              (st2,
               [Event.etagWrite service etag, Event.logGhost service], none)
      else (st1, [Event.logNoUpdate service], none)

/-- One full iteration of the `for feed in FEED_URLS.items()` body: the inner
`try` (parse with the stored etag, or on `KeyError` parse without one and
write the `"hello"` placeholder etag), then the response handling above. -/
def processService (env : CycleEnv) (st : CycleState) (service : String) :
    CycleState × List Event × Option PyExn :=
  let stored := lookupS st.etags service
  let st1 : CycleState :=
    match stored with
    | some _ => st
    | none => { st with etags := setS st.etags service "hello" }
  let evs1 : List Event :=
    match stored with
    | some _ => [Event.fetched service]
    | none => [Event.fetched service, Event.etagWrite service "hello"]
  let r := processServiceBody env st1 service (env.fetch service stored)
  (r.1, evs1 ++ r.2.1, r.2.2)

/-- `actually_check_updates` over an explicit service list: the per-service
body runs sequentially; an exception that the body does not catch aborts the
remainder of the cycle. -/
def actually_check_updates (env : CycleEnv) :
    CycleState → List String → CycleState × List Event × Option PyExn
  | st, [] => (st, [], none)
  | st, service :: rest =>
      let r := processService env st service
      match r.2.2 with
      | some e => (r.1, r.2.1, some e)
      | none =>
          let r2 := actually_check_updates env r.1 rest
          (r2.1, r.2.1 ++ r2.2.1, r2.2.2)

/-- The `FEED_URLS` catalogue. -/
def FEED_URLS : List (String × String) :=
  [("discord", "https://discordstatus.com/history.atom"),
   ("github", "https://www.githubstatus.com/history.atom"),
   ("cloudflare", "https://www.cloudflarestatus.com/history.atom"),
   ("python", "https://status.python.org/history.atom"),
   ("twitter_api", "https://api.twitterstat.us/history.atom"),
   ("statuspage", "https://metastatuspage.com/history.atom"),
   ("zoom", "https://status.zoom.us/history.atom"),
   ("oracle_cloud", "https://ocistatus.oraclecloud.com/history.atom")]

/-- The services every cycle iterates, in catalogue order. -/
def services : List String := FEED_URLS.map Prod.fst

/-- Result of running one cycle under `asyncio.wait_for`'s 150-second bound.
`done` lists the services that completed, `skipped` the rest. -/
inductive CycleResult where
  | completed (st : CycleState) (done : List String)
  | timedOut (st : CycleState) (done skipped : List String)
  | raised (st : CycleState) (done : List String) (e : PyExn)
deriving DecidableEq, Repr

/-- `asyncio.wait_for(self.actually_check_updates(), timeout=150.0)` with
wall time made explicit: `cost s` is the time service `s` takes and `elapsed`
the time consumed so far.  A service whose completion would pass the
150-second deadline is cancelled: it and everything after it are skipped
(cancellation granularity is one whole service). -/
def runTimed (env : CycleEnv) (cost : String → Nat) :
    CycleState → Nat → List String → CycleResult
  | st, _, [] => CycleResult.completed st []
  | st, elapsed, s :: rest =>
      if 150 < elapsed + cost s then CycleResult.timedOut st [] (s :: rest)
      else
        let r := processService env st s
        match r.2.2 with
        | some e => CycleResult.raised r.1 [s] e
        | none =>
            match runTimed env cost r.1 (elapsed + cost s) rest with
            | CycleResult.completed st2 done =>
                CycleResult.completed st2 (s :: done)
            | CycleResult.timedOut st2 done sk =>
                CycleResult.timedOut st2 (s :: done) sk
            | CycleResult.raised st2 done e =>
                CycleResult.raised st2 (s :: done) e

/-- How one firing of the `check_for_updates` task loop ends.
`timeoutLogged` is the `except TimeoutError` branch: a normal return, after
which the task loop schedules the next cycle; `uncaught` is an exception the
body does not catch. -/
inductive LoopOutcome where
  | normal (st : CycleState) (done : List String)
  | timeoutLogged (st : CycleState) (done skipped : List String)
  | uncaught (st : CycleState) (done : List String) (e : PyExn)
deriving DecidableEq, Repr

/-- One firing of `check_for_updates`: run the cycle over the full catalogue
under the 150-second bound and catch (only) the timeout. -/
def check_for_updates (env : CycleEnv) (cost : String → Nat)
    (st : CycleState) : LoopOutcome :=
  match runTimed env cost st 0 services with
  | CycleResult.completed st2 done => LoopOutcome.normal st2 done
  | CycleResult.timedOut st2 done sk => LoopOutcome.timeoutLogged st2 done sk
  | CycleResult.raised st2 done e => LoopOutcome.uncaught st2 done e

/-- Outcome of the `statusset remove` body.  `keyError` records that
`feeds[service]` on a service with no entry raises `KeyError`, which the
`except TypeError` handler does not catch. -/
inductive RemoveResult where
  | removed
  | notSubscribed
  | keyError
deriving DecidableEq, Repr

/-- The `statusset_remove` read-modify-write on one guild's `feeds` dict.
List shape: membership test then `list.remove` (first occurrence).  Legacy int
shape: the membership test raises `TypeError`, whose handler sets
`feeds[service] = []` and falls through to the "Removed" confirmation. -/
def statusset_remove (feeds : List (String × FeedsVal)) (service : String)
    (chan : Int) : RemoveResult × List (String × FeedsVal) :=
  match lookupS feeds service with
  | none => (RemoveResult.keyError, feeds)
  | some (FeedsVal.chans l) =>
      if chan ∈ l then
        (RemoveResult.removed, setS feeds service (FeedsVal.chans (l.erase chan)))
      else (RemoveResult.notSubscribed, feeds)
  | some (FeedsVal.legacy _) =>
      (RemoveResult.removed, setS feeds service (FeedsVal.chans []))

/-! Concrete instances used by witnesses and counterexamples. -/

/-- A sample normalized update. -/
def fdA : FeedDict := ⟨"t", "d", TimeVal.dt 5, 1, "f", [⟨"n", "v"⟩]⟩

/-- Same fields as `fdA`, different timestamp. -/
def fdB : FeedDict := ⟨"t", "d", TimeVal.dt 9, 1, "f", [⟨"n", "v"⟩]⟩

/-- An update whose `fields` list is empty. -/
def fdEmpty : FeedDict := ⟨"t", "d", TimeVal.dt 5, 1, "f", []⟩

/-- Empty persisted stores (a fresh install). -/
def stEmpty : CycleState := ⟨[], []⟩

/-- Stores holding an etag for discord only. -/
def stE0 : CycleState := ⟨[("discord", "E0")], []⟩

/-- A bot with no resolvable channels. -/
def botNone : BotEnv := ⟨fun _ => none, fun _ => true⟩

/-- A bot where channels 1 and 3 resolve (embeds off, sends allowed) and
channel 2 does not resolve. -/
def botDead : BotEnv :=
  ⟨fun cid =>
      if cid = 1 then some ⟨1, 10, false⟩
      else if cid = 3 then some ⟨3, 10, false⟩
      else none,
   fun _ => false⟩

/-- Every fetch succeeds with status 200 and normalization yields `fdA`. -/
def envOk : CycleEnv :=
  ⟨fun _ _ => FetchOutcome.response 200 "E", fun _ => NormalizeOutcome.ok fdA,
   [], botNone⟩

/-- Like `envOk`, but normalizing the discord feed raises
`MalformedFeedError`. -/
def envMal : CycleEnv :=
  ⟨fun _ _ => FetchOutcome.response 200 "E",
   fun s =>
     if s = "discord" then NormalizeOutcome.malformedFeedError
     else NormalizeOutcome.ok fdA,
   [], botNone⟩

/-- Every fetch returns a non-200 response. -/
def envNon200 : CycleEnv :=
  ⟨fun _ _ => FetchOutcome.response 404 "E2", fun _ => NormalizeOutcome.ok fdA,
   [], botNone⟩

/-- Fetching discord raises `ConnectionRefusedError`; every other service
responds 200 and normalizes to `fdA`. -/
def envConn : CycleEnv :=
  ⟨fun s _ =>
      if s = "discord" then FetchOutcome.connRefused
      else FetchOutcome.response 200 "E",
   fun _ => NormalizeOutcome.ok fdA, [], botNone⟩

/-- Two guilds that both subscribed channel 5 to the github feed. -/
def agDup : List (Int × List (String × FeedsVal)) :=
  [(1, [("github", FeedsVal.chans [5])]), (2, [("github", FeedsVal.chans [5])])]

/-- A guild whose discord entry still has the legacy single-int shape,
holding channel 111. -/
def feedsLegacy : List (String × FeedsVal) := [("discord", FeedsVal.legacy 111)]

/-- A guild whose discord entry is the list [7]. -/
def feedsW8 : List (String × FeedsVal) := [("discord", FeedsVal.chans [7])]

/-! Helper lemmas. -/

theorem lookupS_setS_self {α : Type} (m : List (String × α)) (k : String)
    (v : α) : lookupS (setS m k v) k = some v := by
  induction m with
  | nil => simp [setS, lookupS]
  | cons hd tl ih =>
      obtain ⟨k1, v1⟩ := hd
      by_cases h : k1 = k
      · simp [setS, lookupS, h]
      · simp [setS, lookupS, h, ih]

theorem check_real_update_ghost_iff (service : String) (fd : FeedDict)
    (store : List (String × FeedDict)) :
    (check_real_update service fd store).1 = false ↔
      (lookupS store service).map FeedDict.fields = some fd.fields := by
  by_cases h : (lookupS store service).map FeedDict.fields = some fd.fields <;>
    simp [check_real_update, h]

theorem check_real_update_eq_of_accept (service : String) (fd : FeedDict)
    (store : List (String × FeedDict))
    (h : ¬ (lookupS store service).map FeedDict.fields = some fd.fields) :
    check_real_update service fd store =
      (true, { fd with time := TimeVal.epoch fd.time.toEpoch },
       setS store service { fd with time := TimeVal.epoch fd.time.toEpoch }) := by
  simp [check_real_update, h]

theorem check_real_update_eq_of_ghost (service : String) (fd : FeedDict)
    (store : List (String × FeedDict))
    (h : (lookupS store service).map FeedDict.fields = some fd.fields) :
    check_real_update service fd store = (false, fd, store) := by
  simp [check_real_update, h]

/-! Claim theorems. -/

/-- C1: `check_real_update` decides Ghost vs Accepted by comparing only the
candidate's `fields` sequence with the stored field list for the service
(order-sensitive structural equality of name/value pairs), ignoring the
timestamp: the decision is Ghost exactly when the stored field list equals
the candidate's (so a candidate differing from the stored update only in
timestamp is Ghost, and on a fresh or different store the first evaluation is
Accepted), and re-evaluating the same fields immediately afterwards is always
Ghost. -/
theorem check_real_update_fields_only (service : String) (fd fd2 : FeedDict)
    (store : List (String × FeedDict)) (h : fd2.fields = fd.fields) :
    ((check_real_update service fd store).1 = false ↔
      (lookupS store service).map FeedDict.fields = some fd.fields)
    ∧ (check_real_update service fd2
        (check_real_update service fd store).2.2).1 = false := by
  refine ⟨check_real_update_ghost_iff service fd store, ?_⟩
  by_cases hg : (lookupS store service).map FeedDict.fields = some fd.fields
  · rw [check_real_update_eq_of_ghost service fd store hg]
    exact (check_real_update_ghost_iff service fd2 store).mpr (by rw [h]; exact hg)
  · rw [check_real_update_eq_of_accept service fd store hg]
    refine (check_real_update_ghost_iff service fd2 _).mpr ?_
    rw [lookupS_setS_self, h]
    rfl

/-- Witness for `check_real_update_fields_only`: `fdB` differs from `fdA`
only in timestamp; starting from an empty store, the decision
characterization holds and the second evaluation is Ghost. -/
theorem check_real_update_fields_only_witness :
    fdB.fields = fdA.fields
    ∧ (((check_real_update "discord" fdA []).1 = false ↔
        (lookupS ([] : List (String × FeedDict)) "discord").map FeedDict.fields
          = some fdA.fields)
      ∧ (check_real_update "discord" fdB
          (check_real_update "discord" fdA []).2.2).1 = false) :=
  ⟨rfl, check_real_update_fields_only "discord" fdA fdB [] rfl⟩

/-- C2: for a service with no previously stored entry, `check_real_update`
returns Accepted for any candidate whatsoever — the absent entry is a
sentinel distinct from every field list, in particular from the empty one. -/
theorem check_real_update_first_poll (service : String) (fd : FeedDict)
    (store : List (String × FeedDict)) (h : lookupS store service = none) :
    (check_real_update service fd store).1 = true := by
  simp [check_real_update, h]

/-- Witness for `check_real_update_first_poll`: a fresh store accepts a
candidate whose `fields` list is empty. -/
theorem check_real_update_first_poll_witness :
    lookupS ([] : List (String × FeedDict)) "discord" = none
    ∧ (check_real_update "discord" fdEmpty []).1 = true :=
  ⟨rfl, check_real_update_first_poll "discord" fdEmpty [] rfl⟩

/-- C3: in one service's iteration (a 200 response whose document normalizes
to `fd`), a Ghost decision leaves the feed store entry untouched and sends no
notification, while an Accepted decision writes the candidate's fields and
epoch timestamp into the feed store strictly before any send: the trace
splits as `pre ++ storeWrite :: post` with no send event in `pre`, and the
final store holds the accepted record. -/
theorem processService_ghost_skip_accept_order
    (env : CycleEnv) (st : CycleState) (service etag : String) (fd : FeedDict)
    (hf : env.fetch service (lookupS st.etags service) =
      FetchOutcome.response 200 etag)
    (hn : env.normalize service = NormalizeOutcome.ok fd) :
    ((check_real_update service fd st.feed_store).1 = false →
      (processService env st service).1.feed_store = st.feed_store
      ∧ ∀ e ∈ (processService env st service).2.1, isSendEvent e = false)
    ∧ ((check_real_update service fd st.feed_store).1 = true →
      ∃ pre post,
        (processService env st service).2.1 =
          pre ++ Event.storeWrite service
            (check_real_update service fd st.feed_store).2.1 :: post
        ∧ (∀ e ∈ pre, isSendEvent e = false)
        ∧ lookupS (processService env st service).1.feed_store service =
            some (check_real_update service fd st.feed_store).2.1) := by
  by_cases hG :
      (lookupS st.feed_store service).map FeedDict.fields = some fd.fields
  · have hcru := check_real_update_eq_of_ghost service fd st.feed_store hG
    constructor
    · intro _
      rcases hst : lookupS st.etags service with _ | e0 <;> rw [hst] at hf <;>
        simp only [processService, processServiceBody, hst, hf, hn] <;>
        simp [hcru] <;> simp [isSendEvent]
    · intro h1
      rw [hcru] at h1
      simp at h1
  · have hcru := check_real_update_eq_of_accept service fd st.feed_store hG
    constructor
    · intro h0
      rw [hcru] at h0
      simp at h0
    · intro _
      rw [hcru]
      rcases hst : lookupS st.etags service with _ | e0 <;> rw [hst] at hf
      · refine ⟨[Event.fetched service, Event.etagWrite service "hello",
            Event.etagWrite service etag],
            (fanout env.bot service
              { fd with time := TimeVal.epoch fd.time.toEpoch }
              (get_channels env.all_guilds service)).1, ?_, ?_, ?_⟩
        · simp [processService, processServiceBody, hst, hf, hn, hcru]
        · intro e he
          fin_cases he <;> rfl
        · simp [processService, processServiceBody, hst, hf, hn, hcru,
            lookupS_setS_self]
      · refine ⟨[Event.fetched service, Event.etagWrite service etag],
            (fanout env.bot service
              { fd with time := TimeVal.epoch fd.time.toEpoch }
              (get_channels env.all_guilds service)).1, ?_, ?_, ?_⟩
        · simp [processService, processServiceBody, hst, hf, hn, hcru]
        · intro e he
          fin_cases he <;> rfl
        · simp [processService, processServiceBody, hst, hf, hn, hcru,
            lookupS_setS_self]

/-- Witness for `processService_ghost_skip_accept_order` at a concrete input:
`envOk` responds 200 with etag "E" and normalizes to `fdA`. -/
theorem processService_ghost_skip_accept_order_witness :
    (envOk.fetch "discord" (lookupS stEmpty.etags "discord") =
      FetchOutcome.response 200 "E")
    ∧ (envOk.normalize "discord" = NormalizeOutcome.ok fdA)
    ∧ (((check_real_update "discord" fdA stEmpty.feed_store).1 = false →
        (processService envOk stEmpty "discord").1.feed_store =
          stEmpty.feed_store
        ∧ ∀ e ∈ (processService envOk stEmpty "discord").2.1,
            isSendEvent e = false)
      ∧ ((check_real_update "discord" fdA stEmpty.feed_store).1 = true →
        ∃ pre post,
          (processService envOk stEmpty "discord").2.1 =
            pre ++ Event.storeWrite "discord"
              (check_real_update "discord" fdA stEmpty.feed_store).2.1 :: post
          ∧ (∀ e ∈ pre, isSendEvent e = false)
          ∧ lookupS (processService envOk stEmpty "discord").1.feed_store
              "discord" =
              some (check_real_update "discord" fdA stEmpty.feed_store).2.1)) :=
  ⟨rfl, rfl,
   processService_ghost_skip_accept_order envOk stEmpty "discord" "E" fdA
     rfl rfl⟩

/-- C10: when `check_real_update` accepts, it has already replaced the
candidate record's `time` entry by its epoch value (the record it returns
models the in-place mutation of the caller's dict), and that same mutated
record is what the rest of the cycle consumes: the fan-out trace is exactly
`fanout` applied to it — so `send_updated_feed` builds the outgoing message
from the epoch value, not the original absolute time — and the stored entry
is that record as well. -/
theorem check_real_update_accept_epoch_flows
    (env : CycleEnv) (st : CycleState) (service etag : String) (fd : FeedDict)
    (hf : env.fetch service (lookupS st.etags service) =
      FetchOutcome.response 200 etag)
    (hn : env.normalize service = NormalizeOutcome.ok fd)
    (hr : (check_real_update service fd st.feed_store).1 = true) :
    (check_real_update service fd st.feed_store).2.1 =
      { fd with time := TimeVal.epoch fd.time.toEpoch }
    ∧ (∃ pre,
        (processService env st service).2.1 =
          pre ++ Event.storeWrite service
              ((check_real_update service fd st.feed_store).2.1)
            :: (fanout env.bot service
                ((check_real_update service fd st.feed_store).2.1)
                (get_channels env.all_guilds service)).1)
    ∧ lookupS (processService env st service).1.feed_store service =
        some ((check_real_update service fd st.feed_store).2.1) := by
  have hG : ¬ (lookupS st.feed_store service).map FeedDict.fields
      = some fd.fields := by
    intro hG
    rw [check_real_update_eq_of_ghost service fd st.feed_store hG] at hr
    simp at hr
  have hcru := check_real_update_eq_of_accept service fd st.feed_store hG
  rw [hcru]
  refine ⟨rfl, ?_, ?_⟩
  · rcases hst : lookupS st.etags service with _ | e0 <;> rw [hst] at hf
    · exact ⟨[Event.fetched service, Event.etagWrite service "hello",
        Event.etagWrite service etag], by
          simp [processService, processServiceBody, hst, hf, hn, hcru]⟩
    · exact ⟨[Event.fetched service, Event.etagWrite service etag], by
          simp [processService, processServiceBody, hst, hf, hn, hcru]⟩
  · rcases hst : lookupS st.etags service with _ | e0 <;> rw [hst] at hf <;>
      simp [processService, processServiceBody, hst, hf, hn, hcru,
        lookupS_setS_self]

/-- Witness for `check_real_update_accept_epoch_flows`: a fresh store accepts
`fdA`, and the mutated record flows to store and fan-out. -/
theorem check_real_update_accept_epoch_flows_witness :
    (envOk.fetch "discord" (lookupS stEmpty.etags "discord") =
      FetchOutcome.response 200 "E")
    ∧ (envOk.normalize "discord" = NormalizeOutcome.ok fdA)
    ∧ ((check_real_update "discord" fdA stEmpty.feed_store).1 = true)
    ∧ ((check_real_update "discord" fdA stEmpty.feed_store).2.1 =
        { fdA with time := TimeVal.epoch fdA.time.toEpoch }
      ∧ (∃ pre,
          (processService envOk stEmpty "discord").2.1 =
            pre ++ Event.storeWrite "discord"
                ((check_real_update "discord" fdA stEmpty.feed_store).2.1)
              :: (fanout envOk.bot "discord"
                  ((check_real_update "discord" fdA stEmpty.feed_store).2.1)
                  (get_channels envOk.all_guilds "discord")).1)
      ∧ lookupS (processService envOk stEmpty "discord").1.feed_store
          "discord" =
          some ((check_real_update "discord" fdA stEmpty.feed_store).2.1)) :=
  ⟨rfl, rfl, by decide,
   check_real_update_accept_epoch_flows envOk stEmpty "discord" "E" fdA
     rfl rfl (by decide)⟩

theorem fanout_no_abort (env : BotEnv) (service : String) (fd : FeedDict)
    (cs : List Int) (h : ∀ c ∈ cs, env.getChannel c ≠ none) :
    (fanout env service fd cs).2 = none := by
  induction cs with
  | nil => simp [fanout]
  | cons c rest ih =>
      have hc := h c (by simp)
      have hrest : ∀ x ∈ rest, env.getChannel x ≠ none :=
        fun x hx => h x (List.mem_cons_of_mem c hx)
      rcases hch : env.getChannel c with _ | ch
      · exact absurd hch hc
      · by_cases hsf : ch.sendForbidden <;>
          simp [fanout, send_updated_feed, hch, hsf, ih hrest]

theorem processServiceBody_no_abort (env : CycleEnv) (st1 : CycleState)
    (service : String) (resp : FetchOutcome)
    (hn : env.normalize service ≠ NormalizeOutcome.malformedFeedError)
    (hc : ∀ c ∈ get_channels env.all_guilds service,
      env.bot.getChannel c ≠ none) :
    (processServiceBody env st1 service resp).2.2 = none := by
  rcases resp with ⟨status, etag⟩ | _ | _
  · rcases hnn : env.normalize service with fd | _
    · by_cases h200 : status = 200
      · by_cases hr : (check_real_update service fd st1.feed_store).1 = true
        · have hfan := fanout_no_abort env.bot service
            (check_real_update service fd st1.feed_store).2.1
            (get_channels env.all_guilds service) hc
          simp [processServiceBody, hnn, h200, hr, hfan]
        · simp [processServiceBody, hnn, h200, hr]
      · simp [processServiceBody, h200]
    · exact absurd hnn hn
  · simp [processServiceBody]
  · simp [processServiceBody]

theorem processService_no_abort (env : CycleEnv) (st : CycleState)
    (service : String)
    (hn : env.normalize service ≠ NormalizeOutcome.malformedFeedError)
    (hc : ∀ c ∈ get_channels env.all_guilds service,
      env.bot.getChannel c ≠ none) :
    (processService env st service).2.2 = none := by
  rcases hst : lookupS st.etags service with _ | e0
  · simpa [processService, hst] using
      processServiceBody_no_abort env
        { st with etags := setS st.etags service "hello" } service
        (env.fetch service none) hn hc
  · simpa [processService, hst] using
      processServiceBody_no_abort env st service
        (env.fetch service (some e0)) hn hc

theorem processService_fetched_mem (env : CycleEnv) (st : CycleState)
    (service : String) :
    Event.fetched service ∈ (processService env st service).2.1 := by
  rcases hst : lookupS st.etags service with _ | e0 <;>
    simp [processService, hst]

theorem processService_conn_contained (env : CycleEnv) (st : CycleState)
    (service : String)
    (hf : env.fetch service (lookupS st.etags service) =
      FetchOutcome.connRefused) :
    (processService env st service).2.2 = none
    ∧ Event.logConnFail service ∈ (processService env st service).2.1
    ∧ (processService env st service).1.feed_store = st.feed_store := by
  rcases hst : lookupS st.etags service with _ | e0 <;> rw [hst] at hf <;>
    simp [processService, processServiceBody, hst, hf]

theorem acu_cons_no_abort (env : CycleEnv) (st : CycleState) (s : String)
    (rest : List String) (hps : (processService env st s).2.2 = none) :
    actually_check_updates env st (s :: rest) =
      ((actually_check_updates env (processService env st s).1 rest).1,
       (processService env st s).2.1 ++
         (actually_check_updates env (processService env st s).1 rest).2.1,
       (actually_check_updates env (processService env st s).1 rest).2.2) := by
  simp [actually_check_updates, hps]

theorem acu_complete (env : CycleEnv) (svcs : List String)
    (hn : ∀ s ∈ svcs, env.normalize s ≠ NormalizeOutcome.malformedFeedError)
    (hc : ∀ s ∈ svcs, ∀ c ∈ get_channels env.all_guilds s,
      env.bot.getChannel c ≠ none) :
    ∀ st : CycleState,
      (actually_check_updates env st svcs).2.2 = none
      ∧ ∀ s ∈ svcs,
          Event.fetched s ∈ (actually_check_updates env st svcs).2.1 := by
  induction svcs with
  | nil => intro st; simp [actually_check_updates]
  | cons s rest ih =>
      intro st
      have hnr : ∀ x ∈ rest,
          env.normalize x ≠ NormalizeOutcome.malformedFeedError :=
        fun x hx => hn x (List.mem_cons_of_mem s hx)
      have hcr : ∀ x ∈ rest, ∀ c ∈ get_channels env.all_guilds x,
          env.bot.getChannel c ≠ none :=
        fun x hx => hc x (List.mem_cons_of_mem s hx)
      have hps := processService_no_abort env st s (hn s (by simp))
        (hc s (by simp))
      have ihr := ih hnr hcr (processService env st s).1
      rw [acu_cons_no_abort env st s rest hps]
      refine ⟨ihr.1, ?_⟩
      intro x hx
      rcases List.mem_cons.mp hx with rfl | hx2
      · exact List.mem_append_left _ (processService_fetched_mem env st x)
      · exact List.mem_append_right _ (ihr.2 x hx2)

theorem acu_conn_logged (env : CycleEnv) (svcs : List String)
    (hn : ∀ s ∈ svcs, env.normalize s ≠ NormalizeOutcome.malformedFeedError)
    (hc : ∀ s ∈ svcs, ∀ c ∈ get_channels env.all_guilds s,
      env.bot.getChannel c ≠ none) :
    ∀ st : CycleState, ∀ s ∈ svcs,
      (∀ t, env.fetch s t = FetchOutcome.connRefused) →
      Event.logConnFail s ∈ (actually_check_updates env st svcs).2.1 := by
  induction svcs with
  | nil => simp
  | cons s rest ih =>
      intro st x hx hconn
      have hnr : ∀ y ∈ rest,
          env.normalize y ≠ NormalizeOutcome.malformedFeedError :=
        fun y hy => hn y (List.mem_cons_of_mem s hy)
      have hcr : ∀ y ∈ rest, ∀ c ∈ get_channels env.all_guilds y,
          env.bot.getChannel c ≠ none :=
        fun y hy => hc y (List.mem_cons_of_mem s hy)
      have hps := processService_no_abort env st s (hn s (by simp))
        (hc s (by simp))
      rw [acu_cons_no_abort env st s rest hps]
      rcases List.mem_cons.mp hx with rfl | hx2
      · exact List.mem_append_left _
          (processService_conn_contained env st x (hconn _)).2.1
      · exact List.mem_append_right _
          (ih hnr hcr (processService env st s).1 x hx2 hconn)

/-- C4 counterexample: in a cycle where the discord document fails to
normalize (the spec-modelled `MalformedFeedError`), the exception escapes the
per-service `try`, whose handlers catch only `ConnectionRefusedError`,
`URLError` and `KeyError`: the cycle aborts and the next service (github) is
never processed, contradicting the claim that any parse/normalize failure is
caught and the loop proceeds to every remaining service. -/
theorem actually_check_updates_malformed_aborts :
    (actually_check_updates envMal stEmpty services).2.2 =
      some PyExn.malformedFeedError
    ∧ Event.fetched "github" ∉
        (actually_check_updates envMal stEmpty services).2.1 := by
  decide

/-- C4 (amended): connection failures (`ConnectionRefusedError`/`URLError`)
for one service are caught and logged and the loop proceeds — whenever no
service's normalization raises the (spec-modelled) `MalformedFeedError` and
every subscribed destination resolves, the cycle raises nothing and every
service in the list is processed, and a service whose fetch raises a
connection error still gets its failure logged within that same cycle. -/
theorem actually_check_updates_contained_failures (env : CycleEnv)
    (svcs : List String) (st : CycleState)
    (hn : ∀ s ∈ svcs, env.normalize s ≠ NormalizeOutcome.malformedFeedError)
    (hc : ∀ s ∈ svcs, ∀ c ∈ get_channels env.all_guilds s,
      env.bot.getChannel c ≠ none) :
    (actually_check_updates env st svcs).2.2 = none
    ∧ (∀ s ∈ svcs, Event.fetched s ∈ (actually_check_updates env st svcs).2.1)
    ∧ (∀ s ∈ svcs, (∀ t, env.fetch s t = FetchOutcome.connRefused) →
        Event.logConnFail s ∈ (actually_check_updates env st svcs).2.1) :=
  ⟨(acu_complete env svcs hn hc st).1, (acu_complete env svcs hn hc st).2,
   fun s hs hconn => acu_conn_logged env svcs hn hc st s hs hconn⟩

/-- Witness for `actually_check_updates_contained_failures`: discord's fetch
raises `ConnectionRefusedError` while the other services respond normally;
the cycle completes, processes all eight services and logs the failure. -/
theorem actually_check_updates_contained_failures_witness :
    (∀ s ∈ services,
      envConn.normalize s ≠ NormalizeOutcome.malformedFeedError)
    ∧ (∀ s ∈ services, ∀ c ∈ get_channels envConn.all_guilds s,
        envConn.bot.getChannel c ≠ none)
    ∧ ((actually_check_updates envConn stEmpty services).2.2 = none
      ∧ (∀ s ∈ services,
          Event.fetched s ∈ (actually_check_updates envConn stEmpty services).2.1)
      ∧ (∀ s ∈ services,
          (∀ t, envConn.fetch s t = FetchOutcome.connRefused) →
          Event.logConnFail s ∈
            (actually_check_updates envConn stEmpty services).2.1)) :=
  ⟨by decide, by decide,
   actually_check_updates_contained_failures envConn services stEmpty
     (by decide) (by decide)⟩

theorem runTimed_timedOut_split (env : CycleEnv) (cost : String → Nat) :
    ∀ (l : List String) (st : CycleState) (elapsed : Nat)
      (st2 : CycleState) (done sk : List String),
      runTimed env cost st elapsed l = CycleResult.timedOut st2 done sk →
      done ++ sk = l := by
  intro l
  induction l with
  | nil =>
      intro st elapsed st2 done sk h
      simp [runTimed] at h
  | cons s rest ih =>
      intro st elapsed st2 done sk h
      simp only [runTimed] at h
      by_cases ht : 150 < elapsed + cost s
      · rw [if_pos ht] at h
        cases h
        rfl
      · rw [if_neg ht] at h
        rcases he : (processService env st s).2.2 with _ | e <;>
          simp only [he] at h
        · rcases hrt : runTimed env cost (processService env st s).1
              (elapsed + cost s) rest with
              ⟨st3, done3⟩ | ⟨st3, done3, sk3⟩ | ⟨st3, done3, e3⟩ <;>
            simp only [hrt] at h
          · cases h
          · cases h
            simp [ih _ _ _ _ _ hrt]
          · cases h
        · cases h

/-- C5: one firing of `check_for_updates` runs the cycle under the
150-second `asyncio.wait_for` bound; when the bound is hit, the timeout is
caught and logged (the `timeoutLogged` outcome — a normal return of the task
body, so the scheduler survives and fires again), the unprocessed remainder
of the catalogue is exactly what gets skipped (`done ++ skipped` is the full
catalogue), and every skipped service belongs to the catalogue the next
cycle iterates from the top. -/
theorem check_for_updates_timeout_contained (env : CycleEnv)
    (cost : String → Nat) (st st2 : CycleState) (done skipped : List String)
    (h : runTimed env cost st 0 services =
      CycleResult.timedOut st2 done skipped) :
    check_for_updates env cost st = LoopOutcome.timeoutLogged st2 done skipped
    ∧ done ++ skipped = services
    ∧ ∀ s ∈ skipped, s ∈ services := by
  have hsplit :=
    runTimed_timedOut_split env cost services st 0 st2 done skipped h
  refine ⟨by simp [check_for_updates, h], hsplit, ?_⟩
  intro s hs
  rw [← hsplit]
  exact List.mem_append_right _ hs

/-- Witness for `check_for_updates_timeout_contained`: with every service
costing 200 seconds the very first one passes the deadline, so the whole
catalogue is skipped this cycle and reappears in the next one. -/
theorem check_for_updates_timeout_contained_witness :
    (runTimed envConn (fun _ => 200) stEmpty 0 services =
      CycleResult.timedOut stEmpty [] services)
    ∧ (check_for_updates envConn (fun _ => 200) stEmpty =
        LoopOutcome.timeoutLogged stEmpty [] services
      ∧ [] ++ services = services
      ∧ ∀ s ∈ services, s ∈ services) :=
  ⟨by decide,
   check_for_updates_timeout_contained envConn (fun _ => 200) stEmpty stEmpty
     [] services (by decide)⟩

/-- C6 (the code at the failing input): fanning one accepted update out to
destinations [1, 2, 3] where destination 2's id no longer resolves
(`bot.get_channel` gives `None`), delivery to 1 succeeds, the attempt on 2
raises the `AttributeError` that escapes `send_updated_feed` — the
`except (Forbidden, AttributeError)` handler's own log line dereferences the
`None` channel — and destination 3 is never attempted; uncaught in
`actually_check_updates`, the exception also aborts the rest of the cycle.
Only the `Forbidden` case is contained, contradicting the claim that a
destination id that no longer resolves cannot prevent delivery to the
remaining destinations. -/
theorem fanout_dead_destination_aborts :
    fanout botDead "discord" fdA [1, 2, 3] =
      ([Event.send "discord"
          (SendOutcome.sent 1 (Message.plain "t" "d" [⟨"n", "v"⟩])),
        Event.send "discord" SendOutcome.attributeError],
       some PyExn.attributeError) := by
  decide

/-- C7 counterexample: for a service with no stored etag, a non-200 response
still leaves the etag store changed — the `"hello"` placeholder written by
the `KeyError` branch before the status is inspected persists — contradicting
the claim that on non-200 the stored caching token is not updated and no
other stored state for the service changes. -/
theorem processService_non200_fresh_etag_written :
    envNon200.fetch "discord" none = FetchOutcome.response 404 "E2"
    ∧ stEmpty.etags = []
    ∧ (processService envNon200 stEmpty "discord").1.etags =
        [("discord", "hello")] := by
  decide

/-- C7 (amended): when an etag is already stored for the service, a non-200
response changes no stored state at all (etag store and feed store are both
untouched), the skip is logged, and nothing is raised; only a service with
no stored etag gets the `"hello"` placeholder written, and that happens
before the status is inspected, regardless of the status. -/
theorem processService_non200_stored_unchanged (env : CycleEnv)
    (st : CycleState) (service e0 : String) (status : Int) (etag : String)
    (he : lookupS st.etags service = some e0)
    (hf : env.fetch service (some e0) = FetchOutcome.response status etag)
    (hs : ¬ status = 200) :
    processService env st service =
      (st, [Event.fetched service, Event.logNoUpdate service], none) := by
  simp [processService, processServiceBody, he, hf, hs]

/-- Witness for `processService_non200_stored_unchanged`: a 404 on a service
whose etag "E0" is stored leaves the state exactly as it was. -/
theorem processService_non200_stored_unchanged_witness :
    lookupS stE0.etags "discord" = some "E0"
    ∧ envNon200.fetch "discord" (some "E0") = FetchOutcome.response 404 "E2"
    ∧ ¬ (404 : Int) = 200
    ∧ processService envNon200 stE0 "discord" =
        (stE0, [Event.fetched "discord", Event.logNoUpdate "discord"], none) :=
  ⟨rfl, rfl, by decide,
   processService_non200_stored_unchanged envNon200 stE0 "discord" "E0" 404
     "E2" rfl rfl (by decide)⟩

/-- C8 counterexample: with the legacy single-int shape storing channel 111,
removing the different channel 222 does not refuse with NotSubscribed and
does not leave the store alone — the membership test raises `TypeError`,
whose handler wipes the stored entry, and the command reports success. -/
theorem statusset_remove_legacy_wipes :
    statusset_remove feedsLegacy "discord" 222 =
      (RemoveResult.removed, [("discord", FeedsVal.chans [])]) := by
  decide

/-- C8 (amended): when the stored value is a channel list, `statusset remove`
refuses (NotSubscribed) and changes nothing whenever the channel is absent
from it; when the stored value is the legacy single-int shape — whatever
channel it holds — the entry is cleared and the command reports a removal;
when the service has no entry at all, `feeds[service]` raises a `KeyError`
that the `except TypeError` does not catch. -/
theorem statusset_remove_cases (feeds : List (String × FeedsVal))
    (service : String) (chan : Int) :
    (∀ l, lookupS feeds service = some (FeedsVal.chans l) → chan ∉ l →
      statusset_remove feeds service chan =
        (RemoveResult.notSubscribed, feeds))
    ∧ (∀ c, lookupS feeds service = some (FeedsVal.legacy c) →
      statusset_remove feeds service chan =
        (RemoveResult.removed, setS feeds service (FeedsVal.chans [])))
    ∧ (lookupS feeds service = none →
      statusset_remove feeds service chan = (RemoveResult.keyError, feeds)) := by
  refine ⟨?_, ?_, ?_⟩
  · intro l hl hmem
    simp [statusset_remove, hl, hmem]
  · intro c hl
    simp [statusset_remove, hl]
  · intro hl
    simp [statusset_remove, hl]

/-- Witness for `statusset_remove_cases`: the list [7] is stored; removing 9
refuses and changes nothing. -/
theorem statusset_remove_cases_witness :
    lookupS feedsW8 "discord" = some (FeedsVal.chans [7])
    ∧ (9 : Int) ∉ ([7] : List Int)
    ∧ statusset_remove feedsW8 "discord" 9 =
        (RemoveResult.notSubscribed, feedsW8) :=
  ⟨rfl, by decide,
   (statusset_remove_cases feedsW8 "discord" 9).1 [7] rfl (by decide)⟩

theorem get_channels_foldl (service : String)
    (ag : List (Int × List (String × FeedsVal))) :
    ∀ acc : List Int,
      ag.foldl
        (fun channels server =>
          match lookupS server.2 service with
          | none => channels
          | some (FeedsVal.chans l) => channels ++ l
          | some (FeedsVal.legacy c) => channels ++ [c]) acc
      = acc ++ (ag.map (guildContrib service)).flatten := by
  induction ag with
  | nil => intro acc; simp
  | cons g rest ih =>
      intro acc
      simp only [List.foldl_cons, List.map_cons, List.flatten]
      rw [ih]
      rcases hg : lookupS g.2 service with _ | v
      · simp [guildContrib, hg]
      · rcases v with l | c <;> simp [guildContrib, hg]

/-- C9 counterexample: channel 5 is stored under two different guilds for
github; `get_channels` returns it twice — the flattened result keeps
cross-guild duplicates rather than behaving as a set. -/
theorem get_channels_cross_guild_dup :
    get_channels agDup "github" = [5, 5]
    ∧ List.count 5 (get_channels agDup "github") = 2 := by
  decide

/-- C9 (amended): `get_channels` is the concatenation of per-guild
contributions — a channel id stored under several guilds appears once per
guild, not at most once overall — while within a single (guild, service)
pair `statusset add` does prevent duplicates: after a successful add of a
channel, adding the same channel again is refused as AlreadySubscribed. -/
theorem get_channels_join_add_dedup :
    (∀ (ag : List (Int × List (String × FeedsVal))) (service : String),
      get_channels ag service = (ag.map (guildContrib service)).flatten)
    ∧ ∀ (feeds : List (String × FeedsVal)) (service : String) (chan : Int),
        (statusset_add feeds service chan).1 = AddResult.added →
        (statusset_add (statusset_add feeds service chan).2 service chan).1 =
          AddResult.alreadySubscribed := by
  constructor
  · intro ag service
    simpa [get_channels] using get_channels_foldl service ag []
  · intro feeds service chan hadd
    rcases hl : lookupS feeds service with _ | v
    · simp [statusset_add, hl, lookupS_setS_self]
    · rcases v with l | c
      · by_cases hmem : chan ∈ l
        · simp [statusset_add, hl, hmem] at hadd
        · simp [statusset_add, hl, hmem, lookupS_setS_self]
      · simp [statusset_add, hl] at hadd

/-- Witness for `get_channels_join_add_dedup`: adding channel 5 to github in
a fresh guild succeeds; adding it again is refused. -/
theorem get_channels_join_add_dedup_witness :
    (statusset_add [] "github" 5).1 = AddResult.added
    ∧ (statusset_add (statusset_add [] "github" 5).2 "github" 5).1 =
        AddResult.alreadySubscribed :=
  ⟨by decide, get_channels_join_add_dedup.2 [] "github" 5 (by decide)⟩

end Status
